import Mathlib

/-!
Verification of the rate-limiting and circuit-breaker primitives of the
`middleware.fastmvc` repository, as a shallow embedding in Lean 4.

The embedding models:
- `InMemoryRateLimitStore.check_rate_limit` (src/fastmvc_middleware/rate_limit.py)
  as a pure state transformer on a per-key list of timestamps;
- `RateLimitMiddleware.dispatch`'s two-tier (minute, then hour) rate-limit
  check as a transformer on a store mapping keys to timestamp lists;
- the circuit breaker (src/fastMiddleware/circuit_breaker.py): `CircuitStats`,
  `_is_failure`, `_handle_open_circuit`, `_record_success`, `_record_failure`,
  and the outcome-recording part of `dispatch`.

Timestamps (Python floats from `time.time()`) are modelled as rationals;
Python ints as `Int`.  Python `int(q)` truncation toward zero is `pyInt`.
-/

namespace FastMVC

/-- Python `int(q)` for a rational `q`: truncation toward zero. -/
def pyInt (q : ℚ) : ℤ :=
  if q < 0 then ⌈q⌉ else ⌊q⌋

/-- Result triple of `check_rate_limit`: `(allowed, remaining, reset_time)`. -/
structure RLReply where
  allowed : Bool
  remaining : ℤ
  reset_time : ℤ
deriving DecidableEq, Repr

/-- The eviction loop of `check_rate_limit`:
`while self._windows[key] and self._windows[key][0] < window_start:  popleft()`.
On an insertion-ordered list this is a prefix trim. -/
def evict (window_start : ℚ) (w : List ℚ) : List ℚ :=
  w.dropWhile (fun ts => decide (ts < window_start))

/-- `InMemoryRateLimitStore.check_rate_limit(key, limit, window)` at time `now`,
acting on the per-key timestamp list `w` (the deque `self._windows[key]`).
Returns the reply and the new per-key state. -/
def check_rate_limit (w : List ℚ) (limit window : ℤ) (now : ℚ) :
    RLReply × List ℚ :=
  let window_start : ℚ := now - (window : ℚ)
  let reset_time : ℤ := pyInt now + window
  let w2 := evict window_start w
  let current_count : ℤ := (w2.length : ℤ)
  if limit ≤ current_count then
    (⟨false, 0, reset_time⟩, w2)
  else
    (⟨true, limit - current_count - 1, reset_time⟩, w2 ++ [now])

/-- The per-key window after `i` successive calls to `check_rate_limit`,
the `j`-th call made at time `t j`, starting from an empty window. -/
def windowAfter (limit window : ℤ) (t : ℕ → ℚ) : ℕ → List ℚ
  | 0 => []
  | i + 1 => (check_rate_limit (windowAfter limit window t i) limit window (t i)).2

/-- The reply of the `i`-th call (0-based) in the same call sequence. -/
def replyAt (limit window : ℤ) (t : ℕ → ℚ) (i : ℕ) : RLReply :=
  (check_rate_limit (windowAfter limit window t i) limit window (t i)).1

/- Helper lemmas about eviction. -/

theorem dropWhile_eq_self_of_forall {α : Type _} (p : α → Bool) (l : List α)
    (h : ∀ x ∈ l, p x = false) : l.dropWhile p = l := by
  cases l with
  | nil => rfl
  | cons a l =>
    rw [List.dropWhile_cons]
    simp [h a (List.mem_cons_self a l)]

theorem evict_eq_self (window_start : ℚ) (w : List ℚ)
    (h : ∀ ts ∈ w, window_start ≤ ts) : evict window_start w = w := by
  apply dropWhile_eq_self_of_forall
  intro x hx
  simp [decide_eq_false_iff_not, not_lt]
  exact h x hx

theorem evict_sublist (window_start : ℚ) (w : List ℚ) :
    (evict window_start w).Sublist w :=
  List.dropWhile_sublist _

theorem evict_idem (window_start : ℚ) (w : List ℚ) :
    evict window_start (evict window_start w) = evict window_start w := by
  unfold evict
  induction w with
  | nil => rfl
  | cons a l ih =>
    by_cases h : a < window_start
    · rw [List.dropWhile_cons]
      simp [h, ih]
    · simp [List.dropWhile_cons, h]

/-- A call on a window where nothing expires and the count is below the
limit: allowed, remaining `limit - count - 1`, timestamp appended. -/
theorem check_rate_limit_allowed (w : List ℚ) (limit window : ℤ) (now : ℚ)
    (hkeep : ∀ ts ∈ w, now - (window : ℚ) ≤ ts)
    (hlt : (w.length : ℤ) < limit) :
    check_rate_limit w limit window now =
      (⟨true, limit - (w.length : ℤ) - 1, pyInt now + window⟩, w ++ [now]) := by
  unfold check_rate_limit
  simp only [evict_eq_self _ _ hkeep]
  rw [if_neg (not_le.mpr hlt)]

/-- A call on a window where nothing expires and the count has reached the
limit: denied, remaining reported 0, state returned unchanged. -/
theorem check_rate_limit_denied (w : List ℚ) (limit window : ℤ) (now : ℚ)
    (hkeep : ∀ ts ∈ w, now - (window : ℚ) ≤ ts)
    (hge : limit ≤ (w.length : ℤ)) :
    check_rate_limit w limit window now =
      (⟨false, 0, pyInt now + window⟩, w) := by
  unfold check_rate_limit
  simp only [evict_eq_self _ _ hkeep]
  rw [if_pos hge]

/-- Starting from an empty window, with all call times within `W` seconds
of each other and nondecreasing, the window after `i ≤ N` calls holds
exactly the first `i` timestamps. -/
theorem windowAfter_eq_range (N : ℕ) (W : ℤ) (t : ℕ → ℚ)
    (hmono : ∀ i j : ℕ, i ≤ j → j ≤ N → t i ≤ t j)
    (hspan : t N - t 0 ≤ (W : ℚ)) :
    ∀ i, i ≤ N → windowAfter (N : ℤ) W t i = (List.range i).map t := by
  intro i
  induction i with
  | zero => intro _; rfl
  | succ i ih =>
    intro hiN
    have hi : i ≤ N := Nat.le_of_succ_le hiN
    have hstep : windowAfter (N : ℤ) W t (i + 1) =
        (check_rate_limit ((List.range i).map t) (N : ℤ) W (t i)).2 := by
      rw [windowAfter, ih hi]
    have hkeep : ∀ ts ∈ (List.range i).map t, t i - (W : ℚ) ≤ ts := by
      intro ts hts
      rcases List.mem_map.mp hts with ⟨j, hj, rfl⟩
      have hji : j < i := List.mem_range.mp hj
      have h1 : t i ≤ t N := hmono i N hi (le_refl N)
      have h2 : t 0 ≤ t j := hmono 0 j (Nat.zero_le j) (le_trans (le_of_lt hji) hi)
      linarith
    have hlen : (((List.range i).map t).length : ℤ) < (N : ℤ) := by
      rw [List.length_map, List.length_range]
      exact_mod_cast hiN
    rw [hstep, check_rate_limit_allowed _ _ _ _ hkeep hlen]
    simp [List.range_succ]

/-- C1: with limit `N` and window `W`, starting from an empty window, `N`
calls all within `W` seconds of each other are each allowed with remaining
`N-1, N-2, …, 0`, and the `(N+1)`-th call within the window is denied with
remaining `0` and leaves the recorded window (hence its count) unchanged. -/
theorem c1_sliding_window_correctness (N : ℕ) (W : ℤ) (t : ℕ → ℚ)
    (hmono : ∀ i j : ℕ, i ≤ j → j ≤ N → t i ≤ t j)
    (hspan : t N - t 0 ≤ (W : ℚ)) :
    (∀ i < N, replyAt (N : ℤ) W t i =
        ⟨true, (N : ℤ) - (i : ℤ) - 1, pyInt (t i) + W⟩) ∧
    replyAt (N : ℤ) W t N = ⟨false, 0, pyInt (t N) + W⟩ ∧
    windowAfter (N : ℤ) W t (N + 1) = windowAfter (N : ℤ) W t N := by
  have hkeepN : ∀ i, i ≤ N → ∀ ts ∈ (List.range i).map t, t i - (W : ℚ) ≤ ts := by
    intro i hi ts hts
    rcases List.mem_map.mp hts with ⟨j, hj, rfl⟩
    have hji : j < i := List.mem_range.mp hj
    have h1 : t i ≤ t N := hmono i N hi (le_refl N)
    have h2 : t 0 ≤ t j := hmono 0 j (Nat.zero_le j) (le_trans (le_of_lt hji) hi)
    linarith
  refine ⟨?_, ?_, ?_⟩
  · intro i hiN
    have hw := windowAfter_eq_range N W t hmono hspan i (le_of_lt hiN)
    have hlen : (((List.range i).map t).length : ℤ) < (N : ℤ) := by
      rw [List.length_map, List.length_range]
      exact_mod_cast hiN
    unfold replyAt
    rw [hw, check_rate_limit_allowed _ _ _ _ (hkeepN i (le_of_lt hiN)) hlen]
    simp
  · have hw := windowAfter_eq_range N W t hmono hspan N (le_refl N)
    have hlen : (N : ℤ) ≤ (((List.range N).map t).length : ℤ) := by
      rw [List.length_map, List.length_range]
    unfold replyAt
    rw [hw, check_rate_limit_denied _ _ _ _ (hkeepN N (le_refl N)) hlen]
  · have hw := windowAfter_eq_range N W t hmono hspan N (le_refl N)
    have hlen : (N : ℤ) ≤ (((List.range N).map t).length : ℤ) := by
      rw [List.length_map, List.length_range]
    rw [windowAfter, hw, check_rate_limit_denied _ _ _ _ (hkeepN N (le_refl N)) hlen]

/-- Witness for C1 at `N = 2`, `W = 60`, all calls at time `0`. -/
theorem c1_sliding_window_correctness_witness :
    (∀ i < 2, replyAt ((2 : ℕ) : ℤ) 60 (fun _ => (0 : ℚ)) i =
        ⟨true, ((2 : ℕ) : ℤ) - (i : ℤ) - 1, pyInt 0 + 60⟩) ∧
    replyAt ((2 : ℕ) : ℤ) 60 (fun _ => (0 : ℚ)) 2 = ⟨false, 0, pyInt 0 + 60⟩ ∧
    windowAfter ((2 : ℕ) : ℤ) 60 (fun _ => (0 : ℚ)) 3 =
      windowAfter ((2 : ℕ) : ℤ) 60 (fun _ => (0 : ℚ)) 2 :=
  c1_sliding_window_correctness 2 60 (fun _ => 0)
    (fun _ _ _ _ => le_refl 0) (by norm_num)

/-- The denied branch of `check_rate_limit`, characterised: when the evicted
count has reached the limit the reply is `(false, 0, reset)` and the stored
state is the evicted window. -/
theorem check_rate_limit_denied_eq (w : List ℚ) (limit window : ℤ) (now : ℚ)
    (hge : limit ≤ ((evict (now - (window : ℚ)) w).length : ℤ)) :
    check_rate_limit w limit window now =
      (⟨false, 0, pyInt now + window⟩, evict (now - (window : ℚ)) w) := by
  unfold check_rate_limit
  simp only [if_pos hge]

/-- A call whose reply is `allowed = false` took the denied branch. -/
theorem check_rate_limit_denied_inv (w : List ℚ) (limit window : ℤ) (now : ℚ)
    (h : (check_rate_limit w limit window now).1.allowed = false) :
    limit ≤ ((evict (now - (window : ℚ)) w).length : ℤ) := by
  by_contra hlt
  push_neg at hlt
  unfold check_rate_limit at h
  simp only [if_neg (not_le.mpr hlt)] at h
  exact absurd h (by simp)

/-- C4 counterexample: a denied call can still mutate the key's state, by
evicting expired timestamps.  With window `[0, 5, 5, 5]`, `limit = 3`,
`window = 10`, at `now = 11` the call is denied, yet the stored state
shrinks from 4 to 3 timestamps. -/
theorem c4_denial_state_counterexample :
    (check_rate_limit [0, 5, 5, 5] 3 10 11).1.allowed = false ∧
    (check_rate_limit [0, 5, 5, 5] 3 10 11).2 ≠ [0, 5, 5, 5] ∧
    (check_rate_limit [0, 5, 5, 5] 3 10 11).2.length ≠
      ([0, 5, 5, 5] : List ℚ).length := by
  refine ⟨?_, ?_, ?_⟩ <;>
    norm_num [check_rate_limit, evict, List.dropWhile, pyInt]

/-- C4 amended: a denied call never appends a timestamp.  Its post-state is
exactly the pre-state with expired entries evicted — a sublist of the
pre-state, never longer — the reply reports remaining `0`, and an immediate
re-query at the same time is denied again with remaining `0`, never
negative. -/
theorem c4_denial_purity (w : List ℚ) (limit window : ℤ) (now : ℚ)
    (h : (check_rate_limit w limit window now).1.allowed = false) :
    (check_rate_limit w limit window now).2 = evict (now - (window : ℚ)) w ∧
    ((check_rate_limit w limit window now).2).Sublist w ∧
    (check_rate_limit w limit window now).2.length ≤ w.length ∧
    (check_rate_limit w limit window now).1.remaining = 0 ∧
    (check_rate_limit ((check_rate_limit w limit window now).2)
        limit window now).1 = ⟨false, 0, pyInt now + window⟩ := by
  have hge := check_rate_limit_denied_inv w limit window now h
  have hmain := check_rate_limit_denied_eq w limit window now hge
  refine ⟨by rw [hmain], ?_, ?_, by rw [hmain], ?_⟩
  · rw [hmain]
    exact evict_sublist _ _
  · rw [hmain]
    exact (evict_sublist _ _).length_le
  · rw [hmain]
    have hge2 : limit ≤
        ((evict (now - (window : ℚ)) (evict (now - (window : ℚ)) w)).length : ℤ) := by
      rw [evict_idem]
      exact hge
    rw [check_rate_limit_denied_eq _ _ _ _ hge2]

/-- Witness for C4's amended theorem at the counterexample input. -/
theorem c4_denial_purity_witness :
    (check_rate_limit [0, 5, 5, 5] 3 10 11).1.allowed = false ∧
    ((check_rate_limit [0, 5, 5, 5] 3 10 11).2 =
        evict (11 - ((10 : ℤ) : ℚ)) [0, 5, 5, 5] ∧
      ((check_rate_limit [0, 5, 5, 5] 3 10 11).2).Sublist [0, 5, 5, 5] ∧
      (check_rate_limit [0, 5, 5, 5] 3 10 11).2.length ≤
        ([0, 5, 5, 5] : List ℚ).length ∧
      (check_rate_limit [0, 5, 5, 5] 3 10 11).1.remaining = 0 ∧
      (check_rate_limit ((check_rate_limit [0, 5, 5, 5] 3 10 11).2)
          3 10 11).1 = ⟨false, 0, pyInt 11 + 10⟩) :=
  ⟨by norm_num [check_rate_limit, evict, List.dropWhile, pyInt],
    c4_denial_purity [0, 5, 5, 5] 3 10 11
      (by norm_num [check_rate_limit, evict, List.dropWhile, pyInt])⟩

/-- The allowed branch of `check_rate_limit`, characterised: when the
evicted count is below the limit the reply is
`(true, limit - count - 1, reset)` and `now` is appended. -/
theorem check_rate_limit_allowed_eq (w : List ℚ) (limit window : ℤ) (now : ℚ)
    (hlt : ((evict (now - (window : ℚ)) w).length : ℤ) < limit) :
    check_rate_limit w limit window now =
      (⟨true, limit - ((evict (now - (window : ℚ)) w).length : ℤ) - 1,
          pyInt now + window⟩,
        evict (now - (window : ℚ)) w ++ [now]) := by
  unfold check_rate_limit
  simp only [if_neg (not_le.mpr hlt)]

/-- A call whose reply is `allowed = true` took the allowed branch. -/
theorem check_rate_limit_allowed_inv (w : List ℚ) (limit window : ℤ) (now : ℚ)
    (h : (check_rate_limit w limit window now).1.allowed = true) :
    ((evict (now - (window : ℚ)) w).length : ℤ) < limit := by
  by_contra hge
  push_neg at hge
  unfold check_rate_limit at h
  simp only [if_pos hge] at h
  exact absurd h (by simp)

/-- The limiter-relevant fields of the `RateLimitConfig` dataclass
(Python defaults: `requests_per_minute = 60`, `requests_per_hour = 1000`). -/
structure RateLimitConfig where
  requests_per_minute : ℤ
  requests_per_hour : ℤ
deriving DecidableEq, Repr

/-- Outcome of the rate-limit checks in `RateLimitMiddleware.dispatch`:
a 429 built from the failed tier's limit and reset time, or the request
passes carrying the minute tier's remaining/reset header values. -/
inductive RLOutcome where
  | limited (limit reset_time : ℤ)
  | passed (remaining reset_time : ℤ)
deriving DecidableEq, Repr

/-- The two-tier check of `RateLimitMiddleware.dispatch`: the minute window
(`f"{key}:minute"`, limit `requests_per_minute`, window 60) is checked
first; only if it allows is the hour window (`f"{key}:hour"`, limit
`requests_per_hour`, window 3600) checked.  `store` is the per-key state
map `self._windows`; `now1` and `now2` are the clock readings of the two
`check_rate_limit` calls. -/
def rl_dispatch (cfg : RateLimitConfig) (store : String → List ℚ)
    (key : String) (now1 now2 : ℚ) : RLOutcome × (String → List ℚ) :=
  let mkey := key ++ ":minute"
  let hkey := key ++ ":hour"
  let res1 := check_rate_limit (store mkey) cfg.requests_per_minute 60 now1
  let store1 := Function.update store mkey res1.2
  if res1.1.allowed = false then
    (.limited cfg.requests_per_minute res1.1.reset_time, store1)
  else
    let res2 := check_rate_limit (store1 hkey) cfg.requests_per_hour 3600 now2
    let store2 := Function.update store1 hkey res2.2
    if res2.1.allowed = false then
      (.limited cfg.requests_per_hour res2.1.reset_time, store2)
    else
      (.passed res1.1.remaining res1.1.reset_time, store2)

/-- The minute and hour bucket keys of one rate-limit key are distinct. -/
theorem minute_key_ne_hour_key (key : String) :
    key ++ ":minute" ≠ key ++ ":hour" := by
  intro h
  have hlen := congrArg String.length h
  rw [String.length_append, String.length_append] at hlen
  have h7 : (":minute").length = 7 := rfl
  have h5 : (":hour").length = 5 := rfl
  omega

/-- C5: in `RateLimitMiddleware.dispatch` the per-minute window is checked
before the per-hour window; when the minute check denies, the response is
built from the minute tier (429 with the minute limit and reset), the hour
window's state is left exactly unchanged (the hour check is never
evaluated), and no timestamp is recorded in either window: every timestamp
stored for the minute key afterwards was already there before. -/
theorem c5_minute_denial_no_hour_state (cfg : RateLimitConfig)
    (store : String → List ℚ) (key : String) (now1 now2 : ℚ)
    (h : (check_rate_limit (store (key ++ ":minute"))
        cfg.requests_per_minute 60 now1).1.allowed = false) :
    (rl_dispatch cfg store key now1 now2).1 =
      .limited cfg.requests_per_minute
        (check_rate_limit (store (key ++ ":minute"))
          cfg.requests_per_minute 60 now1).1.reset_time ∧
    (rl_dispatch cfg store key now1 now2).2 (key ++ ":hour") =
      store (key ++ ":hour") ∧
    ∀ ts ∈ (rl_dispatch cfg store key now1 now2).2 (key ++ ":minute"),
      ts ∈ store (key ++ ":minute") := by
  have hkeys := minute_key_ne_hour_key key
  simp only [rl_dispatch]
  rw [if_pos h]
  refine ⟨rfl, ?_, ?_⟩
  · dsimp only
    rw [Function.update_noteq (Ne.symm hkeys)]
  · dsimp only
    rw [Function.update_same]
    intro ts hts
    have hstate := (c4_denial_purity _ _ _ _ h).1
    rw [hstate] at hts
    exact (evict_sublist _ _).subset hts

/-- Witness for C5: limit 2 on the minute tier, a store holding two fresh
timestamps under every key, a call at time 0. -/
theorem c5_minute_denial_no_hour_state_witness :
    ((check_rate_limit ([0, 0] : List ℚ) 2 60 0).1.allowed = false) ∧
    ((rl_dispatch ⟨2, 5⟩ (fun _ => [0, 0]) "k" 0 0).1 =
        .limited 2 (check_rate_limit ([0, 0] : List ℚ) 2 60 0).1.reset_time ∧
      (rl_dispatch ⟨2, 5⟩ (fun _ => [0, 0]) "k" 0 0).2 ("k" ++ ":hour") =
        [0, 0] ∧
      ∀ ts ∈ (rl_dispatch ⟨2, 5⟩ (fun _ => [0, 0]) "k" 0 0).2 ("k" ++ ":minute"),
        ts ∈ ([0, 0] : List ℚ)) :=
  ⟨by norm_num [check_rate_limit, evict, List.dropWhile],
    c5_minute_denial_no_hour_state ⟨2, 5⟩ (fun _ => [0, 0]) "k" 0 0
      (by norm_num [check_rate_limit, evict, List.dropWhile])⟩

/-- C9: when the minute check allows and the hour check then denies, the
timestamp already appended to the minute window is not rolled back: the
denial is reported from the hour tier, yet the minute key's state is the
evicted pre-state with `now1` appended — the denied request still consumed
one unit of the per-minute quota. -/
theorem c9_hour_denial_keeps_minute_timestamp (cfg : RateLimitConfig)
    (store : String → List ℚ) (key : String) (now1 now2 : ℚ)
    (h1 : (check_rate_limit (store (key ++ ":minute"))
        cfg.requests_per_minute 60 now1).1.allowed = true)
    (h2 : (check_rate_limit (store (key ++ ":hour"))
        cfg.requests_per_hour 3600 now2).1.allowed = false) :
    (rl_dispatch cfg store key now1 now2).1 =
      .limited cfg.requests_per_hour
        (check_rate_limit (store (key ++ ":hour"))
          cfg.requests_per_hour 3600 now2).1.reset_time ∧
    (rl_dispatch cfg store key now1 now2).2 (key ++ ":minute") =
      evict (now1 - ((60 : ℤ) : ℚ)) (store (key ++ ":minute")) ++ [now1] ∧
    now1 ∈ (rl_dispatch cfg store key now1 now2).2 (key ++ ":minute") := by
  have hkeys := minute_key_ne_hour_key key
  have hmkey :
      (check_rate_limit (store (key ++ ":minute"))
        cfg.requests_per_minute 60 now1).2 =
      evict (now1 - ((60 : ℤ) : ℚ)) (store (key ++ ":minute")) ++ [now1] := by
    rw [check_rate_limit_allowed_eq _ _ _ _
      (check_rate_limit_allowed_inv _ _ _ _ h1)]
  have hc1 : ¬ ((check_rate_limit (store (key ++ ":minute"))
      cfg.requests_per_minute 60 now1).1.allowed = false) := by
    simp [h1]
  simp only [rl_dispatch]
  rw [if_neg hc1, Function.update_noteq (Ne.symm hkeys), if_pos h2]
  refine ⟨rfl, ?_, ?_⟩
  · dsimp only
    rw [Function.update_noteq hkeys, Function.update_same, hmkey]
  · dsimp only
    rw [Function.update_noteq hkeys, Function.update_same, hmkey]
    exact List.mem_append_right _ (List.mem_singleton.mpr rfl)

/-- Witness for C9: minute limit 5 admits the call, hour limit 2 then
denies it, with a store holding two fresh timestamps under every key. -/
theorem c9_hour_denial_keeps_minute_timestamp_witness :
    ((check_rate_limit ([0, 0] : List ℚ) 5 60 0).1.allowed = true) ∧
    ((check_rate_limit ([0, 0] : List ℚ) 2 3600 0).1.allowed = false) ∧
    ((rl_dispatch ⟨5, 2⟩ (fun _ => [0, 0]) "k" 0 0).1 =
        .limited 2 (check_rate_limit ([0, 0] : List ℚ) 2 3600 0).1.reset_time ∧
      (rl_dispatch ⟨5, 2⟩ (fun _ => [0, 0]) "k" 0 0).2 ("k" ++ ":minute") =
        evict (0 - ((60 : ℤ) : ℚ)) [0, 0] ++ [0] ∧
      (0 : ℚ) ∈ (rl_dispatch ⟨5, 2⟩ (fun _ => [0, 0]) "k" 0 0).2 ("k" ++ ":minute")) :=
  ⟨by norm_num [check_rate_limit, evict, List.dropWhile],
    by norm_num [check_rate_limit, evict, List.dropWhile],
    c9_hour_denial_keeps_minute_timestamp ⟨5, 2⟩ (fun _ => [0, 0]) "k" 0 0
      (by norm_num [check_rate_limit, evict, List.dropWhile])
      (by norm_num [check_rate_limit, evict, List.dropWhile])⟩

/-- The `CircuitState` enum of the circuit breaker. -/
inductive CircuitState where
  | CLOSED
  | OPEN
  | HALF_OPEN
deriving DecidableEq, Repr

/-- The `CircuitBreakerConfig` dataclass.  The status-code sets are
modelled by membership lists. -/
structure CircuitBreakerConfig where
  failure_threshold : ℤ
  success_threshold : ℤ
  timeout : ℚ
  failure_status_codes : List ℤ
  excluded_status_codes : List ℤ
deriving DecidableEq, Repr

/-- The `CircuitStats` dataclass (fresh circuits start CLOSED with all
counters 0 and `last_failure_time = 0.0`). -/
structure CircuitStats where
  state : CircuitState
  failure_count : ℤ
  success_count : ℤ
  last_failure_time : ℚ
  total_failures : ℤ
  total_requests : ℤ
deriving DecidableEq, Repr

/-- `CircuitBreakerMiddleware._is_failure`: the excluded set is consulted
first and wins; otherwise membership in the failure set decides. -/
def is_failure (cfg : CircuitBreakerConfig) (status : ℤ) : Bool :=
  if status ∈ cfg.excluded_status_codes then false
  else decide (status ∈ cfg.failure_status_codes)

/-- `CircuitBreakerMiddleware._handle_open_circuit` at time `now`: when the
timeout has elapsed, transition to HALF_OPEN (resetting `success_count`)
and allow the call (`none`); otherwise reject (`some`) carrying the 503
body's `retry_after = int(timeout - elapsed)`. -/
def handle_open_circuit (cfg : CircuitBreakerConfig) (c : CircuitStats)
    (now : ℚ) : Option ℤ × CircuitStats :=
  let elapsed := now - c.last_failure_time
  if cfg.timeout ≤ elapsed then
    (none, { c with state := .HALF_OPEN, success_count := 0 })
  else
    (some (pyInt (cfg.timeout - elapsed)), c)

/-- `CircuitBreakerMiddleware._record_success`. -/
def record_success (cfg : CircuitBreakerConfig) (c : CircuitStats) :
    CircuitStats :=
  let c1 := { c with total_requests := c.total_requests + 1 }
  match c1.state with
  | .HALF_OPEN =>
    let c2 := { c1 with success_count := c1.success_count + 1 }
    if cfg.success_threshold ≤ c2.success_count then
      { c2 with state := .CLOSED, failure_count := 0, success_count := 0 }
    else c2
  | .CLOSED => { c1 with failure_count := 0 }
  | .OPEN => c1

/-- `CircuitBreakerMiddleware._record_failure` at time `now`. -/
def record_failure (cfg : CircuitBreakerConfig) (c : CircuitStats)
    (now : ℚ) : CircuitStats :=
  let c1 := { c with
    total_requests := c.total_requests + 1
    total_failures := c.total_failures + 1
    failure_count := c.failure_count + 1
    last_failure_time := now }
  match c1.state with
  | .HALF_OPEN => { c1 with state := .OPEN, failure_count := cfg.failure_threshold }
  | .CLOSED =>
    if cfg.failure_threshold ≤ c1.failure_count then { c1 with state := .OPEN }
    else c1
  | .OPEN => c1

/-- What the downstream handler (`call_next`) does: return a response with
a status code, or raise an exception (identified by a tag). -/
inductive Downstream where
  | response (status : ℤ)
  | exception (e : ℕ)
deriving DecidableEq, Repr

/-- What `CircuitBreakerMiddleware.dispatch` does with one request: a 503
rejection with a `retry_after`, a completed response carrying the
`X-Circuit-State` header value, or the downstream exception re-raised. -/
inductive CBResult where
  | rejected (retry_after : ℤ)
  | completed (status : ℤ) (circuit_header : CircuitState)
  | raised (e : ℕ)
deriving DecidableEq, Repr

/-- The circuit logic of `CircuitBreakerMiddleware.dispatch` for one
request on its circuit `c`: consult `_handle_open_circuit` when OPEN;
if allowed, run the downstream handler and record the outcome
(`_is_failure` classifies responses; an exception always records a
failure and is re-raised).  `now1`/`now2` are the clock readings of the
open-circuit check and of `_record_failure`. -/
def cb_dispatch (cfg : CircuitBreakerConfig) (c : CircuitStats)
    (now1 now2 : ℚ) (d : Downstream) : CBResult × CircuitStats :=
  let checked :=
    if c.state = CircuitState.OPEN then handle_open_circuit cfg c now1
    else (none, c)
  match checked with
  | (some retry, c1) => (.rejected retry, c1)
  | (none, c1) =>
    match d with
    | .response status =>
      if is_failure cfg status then
        let c2 := record_failure cfg c1 now2
        (.completed status c2.state, c2)
      else
        let c2 := record_success cfg c1
        (.completed status c2.state, c2)
    | .exception e => (.raised e, record_failure cfg c1 now2)

/-- `i` consecutive recorded failures, the `j`-th at time `ft j`. -/
def failuresAfter (cfg : CircuitBreakerConfig) (ft : ℕ → ℚ) :
    ℕ → CircuitStats → CircuitStats
  | 0, c => c
  | i + 1, c => record_failure cfg (failuresAfter cfg ft i c) (ft i)

/-- `i` consecutive recorded successes. -/
def successesAfter (cfg : CircuitBreakerConfig) :
    ℕ → CircuitStats → CircuitStats
  | 0, c => c
  | i + 1, c => record_success cfg (successesAfter cfg i c)

/- Characterisations of the breaker's single-step transitions. -/

theorem record_failure_closed_stay (cfg : CircuitBreakerConfig)
    (c : CircuitStats) (now : ℚ) (hstate : c.state = .CLOSED)
    (hlt : c.failure_count + 1 < cfg.failure_threshold) :
    record_failure cfg c now = { c with
      total_requests := c.total_requests + 1
      total_failures := c.total_failures + 1
      failure_count := c.failure_count + 1
      last_failure_time := now } := by
  obtain ⟨st, fc, sc, lf, tf, tr⟩ := c
  subst hstate
  simp only [record_failure]
  rw [if_neg (not_le.mpr hlt)]

theorem record_failure_closed_to_open (cfg : CircuitBreakerConfig)
    (c : CircuitStats) (now : ℚ) (hstate : c.state = .CLOSED)
    (hge : cfg.failure_threshold ≤ c.failure_count + 1) :
    record_failure cfg c now = { c with
      state := .OPEN
      total_requests := c.total_requests + 1
      total_failures := c.total_failures + 1
      failure_count := c.failure_count + 1
      last_failure_time := now } := by
  obtain ⟨st, fc, sc, lf, tf, tr⟩ := c
  subst hstate
  simp only [record_failure]
  rw [if_pos hge]

theorem record_failure_half_open (cfg : CircuitBreakerConfig)
    (c : CircuitStats) (now : ℚ) (hstate : c.state = .HALF_OPEN) :
    record_failure cfg c now = { c with
      state := .OPEN
      total_requests := c.total_requests + 1
      total_failures := c.total_failures + 1
      failure_count := cfg.failure_threshold
      last_failure_time := now } := by
  obtain ⟨st, fc, sc, lf, tf, tr⟩ := c
  subst hstate
  simp only [record_failure]

theorem record_success_closed (cfg : CircuitBreakerConfig)
    (c : CircuitStats) (hstate : c.state = .CLOSED) :
    record_success cfg c = { c with
      total_requests := c.total_requests + 1
      failure_count := 0 } := by
  obtain ⟨st, fc, sc, lf, tf, tr⟩ := c
  subst hstate
  simp only [record_success]

theorem record_success_half_open_stay (cfg : CircuitBreakerConfig)
    (c : CircuitStats) (hstate : c.state = .HALF_OPEN)
    (hlt : c.success_count + 1 < cfg.success_threshold) :
    record_success cfg c = { c with
      total_requests := c.total_requests + 1
      success_count := c.success_count + 1 } := by
  obtain ⟨st, fc, sc, lf, tf, tr⟩ := c
  subst hstate
  simp only [record_success]
  rw [if_neg (not_le.mpr hlt)]

theorem record_success_half_open_to_closed (cfg : CircuitBreakerConfig)
    (c : CircuitStats) (hstate : c.state = .HALF_OPEN)
    (hge : cfg.success_threshold ≤ c.success_count + 1) :
    record_success cfg c = { c with
      state := .CLOSED
      total_requests := c.total_requests + 1
      failure_count := 0
      success_count := 0 } := by
  obtain ⟨st, fc, sc, lf, tf, tr⟩ := c
  subst hstate
  simp only [record_success]
  rw [if_pos hge]

theorem handle_open_circuit_timeout (cfg : CircuitBreakerConfig)
    (c : CircuitStats) (now : ℚ)
    (h : cfg.timeout ≤ now - c.last_failure_time) :
    handle_open_circuit cfg c now =
      (none, { c with state := .HALF_OPEN, success_count := 0 }) := by
  simp only [handle_open_circuit]
  rw [if_pos h]

theorem handle_open_circuit_reject (cfg : CircuitBreakerConfig)
    (c : CircuitStats) (now : ℚ)
    (h : now - c.last_failure_time < cfg.timeout) :
    handle_open_circuit cfg c now =
      (some (pyInt (cfg.timeout - (now - c.last_failure_time))), c) := by
  simp only [handle_open_circuit]
  rw [if_neg (not_le.mpr h)]

/-- Below the threshold, consecutive failures from a fresh CLOSED circuit
leave it CLOSED with `failure_count` equal to the number of failures. -/
theorem failuresAfter_closed_below (cfg : CircuitBreakerConfig)
    (c0 : CircuitStats) (ft : ℕ → ℚ) (n : ℕ)
    (hstate : c0.state = .CLOSED) (hfc : c0.failure_count = 0)
    (hthr : cfg.failure_threshold = (n : ℤ)) :
    ∀ i, i < n → (failuresAfter cfg ft i c0).state = .CLOSED ∧
      (failuresAfter cfg ft i c0).failure_count = (i : ℤ) := by
  intro i
  induction i with
  | zero => intro _; exact ⟨hstate, by simpa using hfc⟩
  | succ i ih =>
    intro hin
    obtain ⟨hst, hcnt⟩ := ih (Nat.lt_of_succ_lt hin)
    have hlt : (failuresAfter cfg ft i c0).failure_count + 1 <
        cfg.failure_threshold := by
      rw [hcnt, hthr]
      exact_mod_cast hin
    rw [failuresAfter, record_failure_closed_stay cfg _ (ft i) hst hlt]
    refine ⟨hst, ?_⟩
    rw [hcnt]
    push_cast
    ring

/-- Below the threshold, consecutive successes from a HALF_OPEN circuit
with `success_count = 0` keep it HALF_OPEN, counting the successes. -/
theorem successesAfter_half_open_below (cfg : CircuitBreakerConfig)
    (c0 : CircuitStats) (m : ℕ)
    (hstate : c0.state = .HALF_OPEN) (hsc : c0.success_count = 0)
    (hm : cfg.success_threshold = (m : ℤ)) :
    ∀ i, i < m → (successesAfter cfg i c0).state = .HALF_OPEN ∧
      (successesAfter cfg i c0).success_count = (i : ℤ) := by
  intro i
  induction i with
  | zero => intro _; exact ⟨hstate, by simpa using hsc⟩
  | succ i ih =>
    intro him
    obtain ⟨hst, hcnt⟩ := ih (Nat.lt_of_succ_lt him)
    have hlt : (successesAfter cfg i c0).success_count + 1 <
        cfg.success_threshold := by
      rw [hcnt, hm]
      exact_mod_cast him
    rw [successesAfter, record_success_half_open_stay cfg _ hst hlt]
    refine ⟨hst, ?_⟩
    rw [hcnt]
    push_cast
    ring

/-- An OPEN circuit inside the timeout window rejects the request outright:
`dispatch` returns the 503 with `retry_after = int(timeout - elapsed)` and
the downstream handler is never consulted. -/
theorem cb_dispatch_rejected (cfg : CircuitBreakerConfig) (c : CircuitStats)
    (now1 now2 : ℚ) (d : Downstream) (hopen : c.state = .OPEN)
    (helapsed : now1 - c.last_failure_time < cfg.timeout) :
    cb_dispatch cfg c now1 now2 d =
      (.rejected (pyInt (cfg.timeout - (now1 - c.last_failure_time))), c) := by
  simp only [cb_dispatch]
  rw [if_pos hopen, handle_open_circuit_reject cfg c now1 helapsed]

/-- C2 (amended): starting CLOSED with `failure_count = 0`, the circuit is
still CLOSED after each of the first `threshold - 1` recorded failures and
OPEN after the `threshold`-th; while OPEN with elapsed time strictly less
than the timeout, the next call is rejected with
`retryAfter = ⌊timeout - elapsed⌋` (the code truncates with `int()`),
leaving the circuit unchanged. -/
theorem c2_breaker_opens_on_threshold (cfg : CircuitBreakerConfig)
    (c0 : CircuitStats) (ft : ℕ → ℚ) (n : ℕ) (c : CircuitStats)
    (now1 now2 : ℚ) (d : Downstream)
    (hstate : c0.state = .CLOSED) (hfc : c0.failure_count = 0)
    (hthr : cfg.failure_threshold = (n : ℤ)) (hn : 1 ≤ n)
    (hopen : c.state = .OPEN)
    (helapsed : now1 - c.last_failure_time < cfg.timeout) :
    (∀ i < n, (failuresAfter cfg ft i c0).state = .CLOSED) ∧
    (failuresAfter cfg ft n c0).state = .OPEN ∧
    cb_dispatch cfg c now1 now2 d =
      (.rejected (pyInt (cfg.timeout - (now1 - c.last_failure_time))), c) := by
  refine ⟨fun i hi =>
    (failuresAfter_closed_below cfg c0 ft n hstate hfc hthr i hi).1, ?_,
    cb_dispatch_rejected cfg c now1 now2 d hopen helapsed⟩
  obtain ⟨m, rfl⟩ : ∃ m, n = m + 1 := ⟨n - 1, (Nat.succ_pred_eq_of_pos hn).symm⟩
  obtain ⟨hst, hcnt⟩ := failuresAfter_closed_below cfg c0 ft (m + 1) hstate hfc
    hthr m (Nat.lt_succ_self m)
  have hge : cfg.failure_threshold ≤
      (failuresAfter cfg ft m c0).failure_count + 1 := by
    rw [hcnt, hthr]
    push_cast
    omega
  rw [failuresAfter, record_failure_closed_to_open cfg _ (ft m) hst hge]

/-- Witness for C2 at `failureThreshold = 2`: two failures open the
circuit; a call 30 s into a 60 s timeout is rejected with
`retry_after = 30`. -/
theorem c2_breaker_opens_on_threshold_witness :
    (∀ i < 2, (failuresAfter ⟨2, 2, 60, [500], [400]⟩ (fun _ => 0) i
        ⟨.CLOSED, 0, 0, 0, 0, 0⟩).state = .CLOSED) ∧
    (failuresAfter ⟨2, 2, 60, [500], [400]⟩ (fun _ => 0) 2
        ⟨.CLOSED, 0, 0, 0, 0, 0⟩).state = .OPEN ∧
    cb_dispatch ⟨2, 2, 60, [500], [400]⟩ ⟨.OPEN, 2, 0, 0, 2, 2⟩ 30 30
        (.response 200) =
      (.rejected (pyInt ((60 : ℚ) - ((30 : ℚ) - (0 : ℚ)))),
        ⟨.OPEN, 2, 0, 0, 2, 2⟩) :=
  c2_breaker_opens_on_threshold ⟨2, 2, 60, [500], [400]⟩
    ⟨.CLOSED, 0, 0, 0, 0, 0⟩ (fun _ => 0) 2 ⟨.OPEN, 2, 0, 0, 2, 2⟩ 30 30
    (.response 200) rfl rfl (by norm_num) (by norm_num) rfl (by norm_num)

/-- C2 counterexample: with `timeout = 60` and elapsed time `1/2`, the
code's rejection carries `retry_after = int(59.5) = 59`, which is not
`timeout - elapsed`. -/
theorem c2_retry_after_counterexample :
    (handle_open_circuit ⟨5, 2, 60, [500], [400]⟩ ⟨.OPEN, 5, 0, 0, 5, 5⟩
        (1 / 2)).1 = some 59 ∧
    ((59 : ℚ) ≠ (60 : ℚ) - ((1 / 2 : ℚ) - (0 : ℚ))) := by
  constructor
  · rw [handle_open_circuit_reject _ _ _ (by norm_num)]
    norm_num [pyInt]
  · norm_num

/-- C3: an OPEN circuit whose timeout has elapsed is, at the next check,
lazily moved to HALF_OPEN (success count reset) and the call is allowed;
in HALF_OPEN a single recorded failure returns the circuit to OPEN with
`failure_count` forced to the failure threshold; `successThreshold ≥ 1`
consecutive recorded successes from HALF_OPEN stay HALF_OPEN until the
last, which closes the circuit with `failure_count` and `success_count`
reset to 0. -/
theorem c3_half_open_probe_cycle (cfg : CircuitBreakerConfig)
    (c : CircuitStats) (now : ℚ) (ch : CircuitStats) (nowf : ℚ)
    (c0 : CircuitStats) (m : ℕ)
    (hopen : c.state = .OPEN)
    (helapsed : cfg.timeout ≤ now - c.last_failure_time)
    (hh : ch.state = .HALF_OPEN)
    (h0 : c0.state = .HALF_OPEN) (hsc : c0.success_count = 0)
    (hm : cfg.success_threshold = (m : ℤ)) (hm1 : 1 ≤ m) :
    handle_open_circuit cfg c now =
      (none, { c with state := .HALF_OPEN, success_count := 0 }) ∧
    (record_failure cfg ch nowf).state = .OPEN ∧
    (record_failure cfg ch nowf).failure_count = cfg.failure_threshold ∧
    (∀ i < m, (successesAfter cfg i c0).state = .HALF_OPEN) ∧
    (successesAfter cfg m c0).state = .CLOSED ∧
    (successesAfter cfg m c0).failure_count = 0 ∧
    (successesAfter cfg m c0).success_count = 0 := by
  refine ⟨handle_open_circuit_timeout cfg c now helapsed, ?_, ?_,
    fun i hi => (successesAfter_half_open_below cfg c0 m h0 hsc hm i hi).1,
    ?_, ?_, ?_⟩
  · rw [record_failure_half_open cfg ch nowf hh]
  · rw [record_failure_half_open cfg ch nowf hh]
  all_goals {
    obtain ⟨k, rfl⟩ : ∃ k, m = k + 1 := ⟨m - 1, (Nat.succ_pred_eq_of_pos hm1).symm⟩
    obtain ⟨hst, hcnt⟩ := successesAfter_half_open_below cfg c0 (k + 1) h0 hsc
      hm k (Nat.lt_succ_self k)
    have hge : cfg.success_threshold ≤
        (successesAfter cfg k c0).success_count + 1 := by
      rw [hcnt, hm]
      push_cast
      omega
    rw [successesAfter, record_success_half_open_to_closed cfg _ hst hge]
  }

/-- Witness for C3 at `successThreshold = 2`: an OPEN circuit checked 100 s
after the last failure (timeout 60) half-opens and allows; one failure in
HALF_OPEN reopens with `failure_count = 2`; two successes close from
HALF_OPEN with counters reset. -/
theorem c3_half_open_probe_cycle_witness :
    handle_open_circuit ⟨2, 2, 60, [500], [400]⟩ ⟨.OPEN, 2, 1, 0, 2, 2⟩ 100 =
      (none, { (⟨.OPEN, 2, 1, 0, 2, 2⟩ : CircuitStats) with
        state := .HALF_OPEN, success_count := 0 }) ∧
    (record_failure ⟨2, 2, 60, [500], [400]⟩ ⟨.HALF_OPEN, 0, 0, 0, 2, 2⟩
        5).state = .OPEN ∧
    (record_failure ⟨2, 2, 60, [500], [400]⟩ ⟨.HALF_OPEN, 0, 0, 0, 2, 2⟩
        5).failure_count = (⟨2, 2, 60, [500], [400]⟩ :
          CircuitBreakerConfig).failure_threshold ∧
    (∀ i < 2, (successesAfter ⟨2, 2, 60, [500], [400]⟩ i
        ⟨.HALF_OPEN, 0, 0, 0, 0, 0⟩).state = .HALF_OPEN) ∧
    (successesAfter ⟨2, 2, 60, [500], [400]⟩ 2
        ⟨.HALF_OPEN, 0, 0, 0, 0, 0⟩).state = .CLOSED ∧
    (successesAfter ⟨2, 2, 60, [500], [400]⟩ 2
        ⟨.HALF_OPEN, 0, 0, 0, 0, 0⟩).failure_count = 0 ∧
    (successesAfter ⟨2, 2, 60, [500], [400]⟩ 2
        ⟨.HALF_OPEN, 0, 0, 0, 0, 0⟩).success_count = 0 :=
  c3_half_open_probe_cycle ⟨2, 2, 60, [500], [400]⟩ ⟨.OPEN, 2, 1, 0, 2, 2⟩
    100 ⟨.HALF_OPEN, 0, 0, 0, 2, 2⟩ 5 ⟨.HALF_OPEN, 0, 0, 0, 0, 0⟩ 2
    rfl (by norm_num) rfl rfl rfl (by norm_num) (by norm_num)

/-- C6: a response status is classified a failure iff it belongs to the
failure set and not to the excluded set; in particular a status present
in both sets is never a failure — exclusion takes precedence. -/
theorem c6_exclusion_precedence (cfg : CircuitBreakerConfig) (status : ℤ) :
    (is_failure cfg status = true ↔
      status ∈ cfg.failure_status_codes ∧
        status ∉ cfg.excluded_status_codes) ∧
    (status ∈ cfg.failure_status_codes → status ∈ cfg.excluded_status_codes →
      is_failure cfg status = false) := by
  unfold is_failure
  by_cases h : status ∈ cfg.excluded_status_codes
  · simp [h]
  · simp [h]

/- Cumulative-counter bookkeeping of the three breaker operations. -/

theorem record_failure_counters (cfg : CircuitBreakerConfig)
    (c : CircuitStats) (now : ℚ) :
    (record_failure cfg c now).total_failures = c.total_failures + 1 ∧
    (record_failure cfg c now).total_requests = c.total_requests + 1 ∧
    (record_failure cfg c now).last_failure_time = now := by
  obtain ⟨st, fc, sc, lf, tf, tr⟩ := c
  cases st <;> simp only [record_failure] <;> (try split) <;> simp

theorem record_success_counters (cfg : CircuitBreakerConfig)
    (c : CircuitStats) :
    (record_success cfg c).total_failures = c.total_failures ∧
    (record_success cfg c).total_requests = c.total_requests + 1 := by
  obtain ⟨st, fc, sc, lf, tf, tr⟩ := c
  cases st <;> simp only [record_success] <;> (try split) <;> simp

theorem handle_open_circuit_counters (cfg : CircuitBreakerConfig)
    (c : CircuitStats) (now : ℚ) :
    (handle_open_circuit cfg c now).2.total_failures = c.total_failures ∧
    (handle_open_circuit cfg c now).2.total_requests = c.total_requests := by
  simp only [handle_open_circuit]
  by_cases h : cfg.timeout ≤ now - c.last_failure_time
  · rw [if_pos h]
    exact ⟨rfl, rfl⟩
  · rw [if_neg h]
    exact ⟨rfl, rfl⟩

/-- The state the open-circuit check passes on keeps both cumulative
counters of the incoming circuit. -/
theorem checked_counters (cfg : CircuitBreakerConfig) (c : CircuitStats)
    (now1 : ℚ) :
    (if c.state = CircuitState.OPEN then handle_open_circuit cfg c now1
      else (none, c)).2.total_failures = c.total_failures ∧
    (if c.state = CircuitState.OPEN then handle_open_circuit cfg c now1
      else (none, c)).2.total_requests = c.total_requests := by
  by_cases h : c.state = CircuitState.OPEN
  · rw [if_pos h]
    exact handle_open_circuit_counters cfg c now1
  · rw [if_neg h]
    exact ⟨rfl, rfl⟩

/-- C7: when the circuit admits the request and the downstream handler
raises an exception, `dispatch` records a failure on the circuit (both
cumulative counters increment and `last_failure_time` is set to the
recording time) and re-raises the very same exception to the caller —
it is never swallowed. -/
theorem c7_exception_recorded_and_reraised (cfg : CircuitBreakerConfig)
    (c : CircuitStats) (now1 now2 : ℚ) (e : ℕ)
    (hallow : (if c.state = CircuitState.OPEN
        then handle_open_circuit cfg c now1 else (none, c)).1 = none) :
    (cb_dispatch cfg c now1 now2 (.exception e)).1 = .raised e ∧
    (cb_dispatch cfg c now1 now2 (.exception e)).2 =
      record_failure cfg
        (if c.state = CircuitState.OPEN
          then handle_open_circuit cfg c now1 else (none, c)).2 now2 ∧
    (cb_dispatch cfg c now1 now2 (.exception e)).2.total_failures =
      c.total_failures + 1 ∧
    (cb_dispatch cfg c now1 now2 (.exception e)).2.total_requests =
      c.total_requests + 1 ∧
    (cb_dispatch cfg c now1 now2 (.exception e)).2.last_failure_time =
      now2 := by
  have hcc := checked_counters cfg c now1
  have hd : cb_dispatch cfg c now1 now2 (.exception e) =
      (.raised e, record_failure cfg
        (if c.state = CircuitState.OPEN
          then handle_open_circuit cfg c now1 else (none, c)).2 now2) := by
    simp only [cb_dispatch]
    rcases hch : (if c.state = CircuitState.OPEN
        then handle_open_circuit cfg c now1 else (none, c)) with ⟨o, c1⟩
    rw [hch] at hallow
    dsimp at hallow
    subst hallow
    rfl
  have hrf := record_failure_counters cfg
    (if c.state = CircuitState.OPEN
      then handle_open_circuit cfg c now1 else (none, c)).2 now2
  rw [hd]
  exact ⟨rfl, rfl, by rw [hrf.1, hcc.1], by rw [hrf.2.1, hcc.2], hrf.2.2⟩

/-- Witness for C7: a CLOSED circuit, downstream raises exception 7. -/
theorem c7_exception_recorded_and_reraised_witness :
    ((if (⟨.CLOSED, 0, 0, 0, 1, 3⟩ : CircuitStats).state = CircuitState.OPEN
        then handle_open_circuit ⟨2, 2, 60, [500], [400]⟩
          ⟨.CLOSED, 0, 0, 0, 1, 3⟩ 9
        else (none, ⟨.CLOSED, 0, 0, 0, 1, 3⟩)).1 = none) ∧
    ((cb_dispatch ⟨2, 2, 60, [500], [400]⟩ ⟨.CLOSED, 0, 0, 0, 1, 3⟩ 9 10
        (.exception 7)).1 = .raised 7 ∧
      (cb_dispatch ⟨2, 2, 60, [500], [400]⟩ ⟨.CLOSED, 0, 0, 0, 1, 3⟩ 9 10
          (.exception 7)).2 =
        record_failure ⟨2, 2, 60, [500], [400]⟩
          (if (⟨.CLOSED, 0, 0, 0, 1, 3⟩ : CircuitStats).state =
              CircuitState.OPEN
            then handle_open_circuit ⟨2, 2, 60, [500], [400]⟩
              ⟨.CLOSED, 0, 0, 0, 1, 3⟩ 9
            else (none, ⟨.CLOSED, 0, 0, 0, 1, 3⟩)).2 10 ∧
      (cb_dispatch ⟨2, 2, 60, [500], [400]⟩ ⟨.CLOSED, 0, 0, 0, 1, 3⟩ 9 10
          (.exception 7)).2.total_failures = 1 + 1 ∧
      (cb_dispatch ⟨2, 2, 60, [500], [400]⟩ ⟨.CLOSED, 0, 0, 0, 1, 3⟩ 9 10
          (.exception 7)).2.total_requests = 3 + 1 ∧
      (cb_dispatch ⟨2, 2, 60, [500], [400]⟩ ⟨.CLOSED, 0, 0, 0, 1, 3⟩ 9 10
          (.exception 7)).2.last_failure_time = 10) :=
  ⟨rfl, c7_exception_recorded_and_reraised ⟨2, 2, 60, [500], [400]⟩
    ⟨.CLOSED, 0, 0, 0, 1, 3⟩ 9 10 7 rfl⟩

/-- C10: after any single breaker operation, `total_failures` never
exceeds `total_requests` (given it did not before): `_record_failure`
increments both cumulative counters together, `_record_success` increments
only `total_requests`, and the open-circuit check changes neither. -/
theorem c10_cumulative_counters_invariant (cfg : CircuitBreakerConfig)
    (c : CircuitStats) (now : ℚ)
    (h : c.total_failures ≤ c.total_requests) :
    ((record_failure cfg c now).total_failures = c.total_failures + 1 ∧
      (record_failure cfg c now).total_requests = c.total_requests + 1 ∧
      (record_failure cfg c now).total_failures ≤
        (record_failure cfg c now).total_requests) ∧
    ((record_success cfg c).total_failures = c.total_failures ∧
      (record_success cfg c).total_requests = c.total_requests + 1 ∧
      (record_success cfg c).total_failures ≤
        (record_success cfg c).total_requests) ∧
    ((handle_open_circuit cfg c now).2.total_failures = c.total_failures ∧
      (handle_open_circuit cfg c now).2.total_requests = c.total_requests ∧
      (handle_open_circuit cfg c now).2.total_failures ≤
        (handle_open_circuit cfg c now).2.total_requests) := by
  obtain ⟨h1, h2, _⟩ := record_failure_counters cfg c now
  obtain ⟨h3, h4⟩ := record_success_counters cfg c
  obtain ⟨h5, h6⟩ := handle_open_circuit_counters cfg c now
  refine ⟨⟨h1, h2, ?_⟩, ⟨h3, h4, ?_⟩, ⟨h5, h6, ?_⟩⟩ <;> omega

/-- Witness for C10 at a CLOSED circuit with `1 ≤ 3` prior counters. -/
theorem c10_cumulative_counters_invariant_witness :
    ((1 : ℤ) ≤ 3) ∧
    (((record_failure ⟨2, 2, 60, [500], [400]⟩ ⟨.CLOSED, 0, 0, 0, 1, 3⟩
          7).total_failures = 1 + 1 ∧
        (record_failure ⟨2, 2, 60, [500], [400]⟩ ⟨.CLOSED, 0, 0, 0, 1, 3⟩
          7).total_requests = 3 + 1 ∧
        (record_failure ⟨2, 2, 60, [500], [400]⟩ ⟨.CLOSED, 0, 0, 0, 1, 3⟩
          7).total_failures ≤
          (record_failure ⟨2, 2, 60, [500], [400]⟩ ⟨.CLOSED, 0, 0, 0, 1, 3⟩
            7).total_requests) ∧
      ((record_success ⟨2, 2, 60, [500], [400]⟩
          ⟨.CLOSED, 0, 0, 0, 1, 3⟩).total_failures = 1 ∧
        (record_success ⟨2, 2, 60, [500], [400]⟩
          ⟨.CLOSED, 0, 0, 0, 1, 3⟩).total_requests = 3 + 1 ∧
        (record_success ⟨2, 2, 60, [500], [400]⟩
            ⟨.CLOSED, 0, 0, 0, 1, 3⟩).total_failures ≤
          (record_success ⟨2, 2, 60, [500], [400]⟩
            ⟨.CLOSED, 0, 0, 0, 1, 3⟩).total_requests) ∧
      ((handle_open_circuit ⟨2, 2, 60, [500], [400]⟩
          ⟨.CLOSED, 0, 0, 0, 1, 3⟩ 7).2.total_failures = 1 ∧
        (handle_open_circuit ⟨2, 2, 60, [500], [400]⟩
          ⟨.CLOSED, 0, 0, 0, 1, 3⟩ 7).2.total_requests = 3 ∧
        (handle_open_circuit ⟨2, 2, 60, [500], [400]⟩
            ⟨.CLOSED, 0, 0, 0, 1, 3⟩ 7).2.total_failures ≤
          (handle_open_circuit ⟨2, 2, 60, [500], [400]⟩
            ⟨.CLOSED, 0, 0, 0, 1, 3⟩ 7).2.total_requests)) :=
  ⟨by norm_num, c10_cumulative_counters_invariant ⟨2, 2, 60, [500], [400]⟩
    ⟨.CLOSED, 0, 0, 0, 1, 3⟩ 7 (by norm_num)⟩

/-- The `RateLimitConfig` dataclass constructor: no `__post_init__` and no
range checks exist, so construction succeeds for any values. -/
def mkRateLimitConfig (requests_per_minute requests_per_hour : ℤ) :
    Option RateLimitConfig :=
  some ⟨requests_per_minute, requests_per_hour⟩

/-- `CircuitBreakerConfig` construction (and the
`CircuitBreakerMiddleware.__init__` overrides): again no validation. -/
def mkCircuitBreakerConfig (failure_threshold success_threshold : ℤ)
    (timeout : ℚ) (failure_status_codes excluded_status_codes : List ℤ) :
    Option CircuitBreakerConfig :=
  some ⟨failure_threshold, success_threshold, timeout, failure_status_codes,
    excluded_status_codes⟩

/-- C8 (code bug): constructing a configuration with a negative limit or
threshold does not fail — neither dataclass validates — and the bad value
surfaces only at request time: with `requests_per_minute = -1` every
request is denied. -/
theorem c8_no_construction_validation :
    mkRateLimitConfig (-1) 1000 = some ⟨-1, 1000⟩ ∧
    mkCircuitBreakerConfig (-1) 2 60 [500] [400] =
      some ⟨-1, 2, 60, [500], [400]⟩ ∧
    (check_rate_limit [] (-1) 60 0).1.allowed = false := by
  refine ⟨rfl, rfl, ?_⟩
  norm_num [check_rate_limit, evict, List.dropWhile]

end FastMVC
